import Mathlib

/-!
Shallow embedding of the round-based delivery dispatch engine
(`ServiceInstance` in the Go source): data model, the per-unit delivery
task `processDelivery`, the round loop `Run`, the pacing update, and the
statistics counters, together with theorems about the spec's claims.

The World Model (`WorldOperator`) and the RPC transport are external
collaborators whose code is not part of the embedded core; they are
modelled from the spec as explicit parameters (`WorldRules`,
`TaskOutcome`).
-/

namespace Logistics

/-- Coordinate: integer pair (x, y) on the grid; equality is by value. -/
structure Coordinate where
  x : Nat
  y : Nat
deriving DecidableEq

/-- GraphNode: a delivery unit as held by the world model: numeric id,
display name, current coordinate, and the `Metadata` boolean reused as the
arrived flag (`false` = Pending, `true` = Arrived). -/
structure GraphNode where
  id : Nat
  name : String
  coordinate : Coordinate
  metadata : Bool
deriving DecidableEq

/-- Warehouse entity: identity plus coordinate (immutable after population). -/
structure Warehouse where
  id : Nat
  coordinate : Coordinate
deriving DecidableEq

/-- Operation counter: name, `A` = attempts, `B` = errors
(`model.Operation` with `AddA` / `AddB`). -/
structure Operation where
  name : String
  a : Nat
  b : Nat
deriving DecidableEq

/-- `Operation.AddA`: increment the attempts count. -/
def Operation.addA (o : Operation) : Operation :=
  { o with a := o.a + 1 }

/-- `Operation.AddB`: increment the errors count. -/
def Operation.addB (o : Operation) : Operation :=
  { o with b := o.b + 1 }

/-- Replace the element at index `i` by `f` of it (identity out of range). -/
def modifyIdx (f : Operation → Operation) : Nat → List Operation → List Operation
  | _, [] => []
  | 0, o :: rest => f o :: rest
  | n + 1, o :: rest => o :: modifyIdx f n rest

/-- `model.Statistics`: construction time plus the list of operation
counters (`Operation[0]` = "MoveUnit", `Operation[1]` = "UnitReachedWarehouse"). -/
structure Statistics where
  execTime : Nat
  operation : List Operation
deriving DecidableEq

/-- `s.statistics.Operation[i].AddA()`. -/
def Statistics.addA (s : Statistics) (i : Nat) : Statistics :=
  { s with operation := modifyIdx Operation.addA i s.operation }

/-- `s.statistics.Operation[i].AddB()`. -/
def Statistics.addB (s : Statistics) (i : Nat) : Statistics :=
  { s with operation := modifyIdx Operation.addB i s.operation }

/-- The statistics value built in `NewServiceInstance`: both counters start
at zero; `t` stands for the construction timestamp (`time.Now()`). -/
def initStatistics (t : Nat) : Statistics :=
  { execTime := t,
    operation := [
      { name := "MoveUnit", a := 0, b := 0 },
      { name := "UnitReachedWarehouse", a := 0, b := 0 }] }

/-- `maxWarehouses = 1<<8 - 1`. -/
def maxWarehouses : Nat := 2 ^ 8 - 1

/-- `maxCargoUnits = 1<<10`. -/
def maxCargoUnits : Nat := 2 ^ 10

/-- First argument of `wo.Populate` in `NewServiceInstance`:
`rand.Intn(maxWarehouses-10+1) + 10`, with the random source modelled as an
arbitrary natural `r` reduced modulo the `Intn` bound. -/
def populateWarehouseCount (r : Nat) : Nat :=
  r % (maxWarehouses - 10 + 1) + 10

/-- Second argument of `wo.Populate` in `NewServiceInstance`:
`rand.Intn(maxCargoUnits-10+1) + 10`. -/
def populateUnitCount (r : Nat) : Nat :=
  r % (maxCargoUnits - 10 + 1) + 10

/-- The pacing update in `processDelivery`:
`s.maxMoveWaitNumber = rand.Intn(s.maxMoveWaitNumber+1) + 1` followed by
`if s.maxMoveWaitNumber >= 1 { s.maxMoveWaitNumber = s.maxMoveWaitNumber >> 1 }`.
`c` is the current ceiling; the random source is an arbitrary natural `r`
reduced modulo `c + 1`, so the drawn `Intn` value ranges over `[0, c]`. -/
def pacingUpdate (c r : Nat) : Nat :=
  let m := r % (c + 1) + 1
  if 1 ≤ m then m >>> 1 else m

/-- The per-task sleep duration (`time.Duration(pace)` microseconds),
modelled as the microsecond count. -/
def waitMicroseconds (pace : Nat) : Nat := pace

/-- Modelled from the spec: the World Model (`WorldOperator`), whose code is
not part of the embedded core. `route` is `AdvanceTowardNearestWarehouse` as
a function of the unit's current coordinate: it "mutates the unit's position
one step closer to its nearest warehouse (or leaves it unchanged if already
there) and returns the resulting Coordinate"; warehouses are immutable, so
the result depends only on the coordinate. `findWarehouse` is
`FindEntityAt(coordinate, kind=Warehouse)` (`FindEntityByCoordinate`). -/
structure WorldRules where
  route : Coordinate → Coordinate
  findWarehouse : Coordinate → Option Warehouse

/-- The externally determined data consumed by one `processDelivery` call:
whether the `MoveUnit` RPC fails, whether the `UnitReachedWarehouse` RPC
would fail if issued, and the raw value of the random source used by the
pacing update. -/
structure TaskOutcome where
  moveErr : Bool
  reachErr : Bool
  draw : Nat

/-- An RPC issued to the transport client, with the request fields that are
derived from the engine's state. -/
inductive Rpc where
  | moveUnit (cargoUnitId : Nat) (location : Coordinate)
  | unitReachedWarehouse (location : Coordinate) (cargoUnitId : Nat) (warehouseId : Nat)
deriving DecidableEq

/-- The unit id an RPC reports about. -/
def rpcUnitId : Rpc → Nat
  | .moveUnit i _ => i
  | .unitReachedWarehouse _ i _ => i

/-- Result of one `processDelivery` call: the unit's new state, the updated
statistics, the updated pacing ceiling, and the RPCs issued (in order). -/
structure TaskResult where
  unit : GraphNode
  stats : Statistics
  pace : Nat
  rpcs : List Rpc

/-- `ServiceInstance.processDelivery`, sequentialized: sleep and pacing
update, move the unit via the world model, report the move (always counted
as a "MoveUnit" attempt), and on a stationary unit detect and report
arrival. The world model's position update is kept in every branch (no
rollback); `metadata` is set only on a successful arrival report. -/
def processDelivery (wr : WorldRules) (o : TaskOutcome) (unit : GraphNode)
    (stats : Statistics) (pace : Nat) : TaskResult :=
  let pace1 := pacingUpdate pace o.draw
  let oldCoordinate := unit.coordinate
  let newCoordinate := wr.route unit.coordinate
  let unit1 := { unit with coordinate := newCoordinate }
  let stats1 := stats.addA 0
  if o.moveErr then
    ⟨unit1, stats1.addB 0, pace1, [.moveUnit unit.id newCoordinate]⟩
  else if newCoordinate ≠ oldCoordinate then
    ⟨unit1, stats1, pace1, [.moveUnit unit.id newCoordinate]⟩
  else
    match wr.findWarehouse newCoordinate with
    | none => ⟨unit1, stats1, pace1, [.moveUnit unit.id newCoordinate]⟩
    | some wh =>
      let stats2 := stats1.addA 1
      let rpcs := [.moveUnit unit.id newCoordinate,
                   .unitReachedWarehouse newCoordinate unit.id wh.id]
      if o.reachErr then
        ⟨unit1, stats2.addB 1, pace1, rpcs⟩
      else
        ⟨{ unit1 with metadata := true }, stats2, pace1, rpcs⟩

/-- The mutable state the round loop (`Run`) operates on: the delivery unit
list pulled once from the world model, the shared statistics, and the shared
pacing ceiling `maxMoveWaitNumber`. -/
structure RunState where
  units : List GraphNode
  stats : Statistics
  pace : Nat
deriving DecidableEq

/-- Result of one round's fan-out over a suffix of the unit list. -/
structure RoundResult where
  units : List GraphNode
  stats : Statistics
  pace : Nat
  rpcs : List Rpc

/-- The fan-out loop of one round, sequentialized in unit-list order: units
with `metadata = true` are skipped, every other unit gets one
`processDelivery` task. `f i` gives the external outcome for the task of the
unit at position `i`. -/
def runUnits (wr : WorldRules) (f : Nat → TaskOutcome) :
    Nat → List GraphNode → Statistics → Nat → RoundResult
  | _, [], s, p => ⟨[], s, p, []⟩
  | i, u :: rest, s, p =>
    if u.metadata then
      let r := runUnits wr f (i + 1) rest s p
      ⟨u :: r.units, r.stats, r.pace, r.rpcs⟩
    else
      let t := processDelivery wr (f i) u s p
      let r := runUnits wr f (i + 1) rest t.stats t.pace
      ⟨t.unit :: r.units, r.stats, r.pace, t.rpcs ++ r.rpcs⟩

/-- One full round: fan out over all units, barrier-wait, and collect the
new state plus the RPCs issued during the round. -/
def runRound (wr : WorldRules) (f : Nat → TaskOutcome) (st : RunState) :
    RunState × List Rpc :=
  let r := runUnits wr f 0 st.units st.stats st.pace
  (⟨r.units, r.stats, r.pace⟩, r.rpcs)

/-- Number of units with `metadata = true` (`unitsReachedObjective`). -/
def countArrived (us : List GraphNode) : Nat :=
  (us.filter (fun u => u.metadata)).length

/-- The fan-out list of a round: the units with status Pending. -/
def pendingUnits (us : List GraphNode) : List GraphNode :=
  us.filter (fun u => !u.metadata)

/-- Iterate `n` rounds unconditionally, collecting every RPC issued.
`env k i` is the external outcome for the task of the unit at position `i`
in round `k`. -/
def roundTrace (wr : WorldRules) (env : Nat → Nat → TaskOutcome) :
    Nat → RunState → RunState × List Rpc
  | 0, st => (st, [])
  | n + 1, st =>
    let r := runRound wr (env 0) st
    let rest := roundTrace wr (fun k => env (k + 1)) n r.1
    (rest.1, r.2 ++ rest.2)

/-- The round loop of `Run`: at the top of each round count the arrived
units and exit when all have arrived, otherwise fan out one task per
pending unit and repeat. `fuel` bounds the number of convergence checks
(the Go loop is unbounded; `none` means the loop is still running). -/
def runLoop (wr : WorldRules) (env : Nat → Nat → TaskOutcome) :
    Nat → RunState → Option RunState
  | 0, _ => none
  | fuel + 1, st =>
    if countArrived st.units = st.units.length then some st
    else runLoop wr (fun k => env (k + 1)) fuel (runRound wr (env 0) st).1

/-- The tail of `Run` after the loop exits: the elapsed time
(`time.Since(s.statistics.ExecTime)`, with `now` the observation instant)
and one `(operation, count, errors)` report row per operation. -/
def finalReport (now : Nat) (st : RunState) : Nat × List (String × Nat × Nat) :=
  (now - st.stats.execTime, st.stats.operation.map (fun o => (o.name, o.a, o.b)))

/-- `ServiceInstance.Run` without the signal-handling goroutine: run the
round loop, then assemble the report. -/
def Run (wr : WorldRules) (env : Nat → Nat → TaskOutcome) (fuel : Nat)
    (st : RunState) (now : Nat) : Option (Nat × List (String × Nat × Nat)) :=
  (runLoop wr env fuel st).map (finalReport now)

/-! The concrete "3 units, 2 warehouses, always-succeeding transport"
scenario of the spec. -/

/-- Warehouse W1 at the origin, the nearest warehouse of all three units. -/
def wh1 : Warehouse := ⟨1, ⟨0, 0⟩⟩

/-- Warehouse W2, far away from the three units. -/
def wh2 : Warehouse := ⟨2, ⟨10, 10⟩⟩

/-- Modelled from the spec: the scenario's world rules. All three units sit
on the x-axis with W1 at the origin as their nearest warehouse (W2 is at
distance at least 16), so one step toward the nearest warehouse decrements
`x`, and a unit at a warehouse coordinate stays put. -/
def scenarioRules : WorldRules where
  route := fun c => if 0 < c.x then ⟨c.x - 1, c.y⟩ else c
  findWarehouse := fun c =>
    if c = wh1.coordinate then some wh1
    else if c = wh2.coordinate then some wh2
    else none

/-- Unit U1, one step from warehouse W1. -/
def u1 : GraphNode := ⟨1, "U1", ⟨1, 0⟩, false⟩

/-- Unit U2, two steps from warehouse W1. -/
def u2 : GraphNode := ⟨2, "U2", ⟨2, 0⟩, false⟩

/-- Unit U3, three steps from warehouse W1. -/
def u3 : GraphNode := ⟨3, "U3", ⟨3, 0⟩, false⟩

/-- The scenario's initial run state: the three pending units, zeroed
counters, and the initial pacing ceiling `maxMoveWaitNumber = 100`. -/
def scenarioInit : RunState := ⟨[u1, u2, u3], initStatistics 0, 100⟩

/-- The always-succeeding transport: every RPC outcome is a success (the
pacing draw is irrelevant to control flow; fixed to 0). -/
def alwaysOk : Nat → Nat → TaskOutcome := fun _ _ => ⟨false, false, 0⟩

/-- The counter invariant: every operation has Errors ≤ Attempts. -/
def statsOk (s : Statistics) : Prop :=
  ∀ o ∈ s.operation, o.b ≤ o.a

/-- A converged run state: its single unit has already arrived. -/
def stDoneExample : RunState :=
  ⟨[⟨1, "U1", ⟨0, 0⟩, true⟩], initStatistics 0, 100⟩

/-- A run state with one arrived and one pending unit. -/
def stMixedExample : RunState :=
  ⟨[⟨1, "U1", ⟨0, 0⟩, true⟩, ⟨2, "U2", ⟨2, 0⟩, false⟩], initStatistics 0, 100⟩

/-! Theorems. -/

/-- The pacing update in closed form: the drawn value `r % (c+1) + 1` lies
in `[1, c+1]`, the guard `1 ≤ m` always holds, and the shift is division
by two. -/
theorem pacingUpdate_eq (c r : Nat) : pacingUpdate c r = (r % (c + 1) + 1) / 2 := by
  simp only [pacingUpdate, if_pos (Nat.le_add_left 1 _), Nat.shiftRight_eq_div_pow]

/-- C2 counterexample: with current ceiling `c = 1` the claim's set
`\x7bfloor(d/2) : 1 ≤ d ≤ c\x7d` is `\x7b0\x7d`, but the draw `r = 1` (a possible
value of `rand.Intn(2)`) produces the post-update ceiling 1: the code draws
from `[1, c+1]`, not `[1, c]`. -/
theorem pacing_range_counterexample :
    pacingUpdate 1 1 = 1 ∧
    pacingUpdate 1 1 ∉ (Finset.Icc 1 1).image (fun d => d / 2) := by
  decide

/-- C2 (amended): one pacing update replaces the ceiling `c` by
`(drawn + 1) >> 1` where `drawn` is uniform on `[0, c]`, so the added value
`d = drawn + 1` ranges over `[1, c+1]` and every possible post-update
ceiling lies in `\x7bfloor(d/2) : 1 ≤ d ≤ c+1\x7d`. -/
theorem pacing_range (c r : Nat) :
    ∃ d, 1 ≤ d ∧ d ≤ c + 1 ∧ pacingUpdate c r = d / 2 := by
  have h : r % (c + 1) < c + 1 := Nat.mod_lt _ (Nat.succ_pos c)
  exact ⟨r % (c + 1) + 1, by omega, by omega, pacingUpdate_eq c r⟩

/-- C9: the pacing ceiling never increases: for every previous ceiling
`c ≥ 1` the post-update ceiling is at most `c`, and 0 is absorbing — from a
ceiling of 0 every update yields 0 again, so the per-task wait duration is
0 from then on. -/
theorem pacing_monotone (c r : Nat) :
    (1 ≤ c → pacingUpdate c r ≤ c) ∧ pacingUpdate 0 r = 0 ∧
    waitMicroseconds (pacingUpdate 0 r) = 0 := by
  have h : r % (c + 1) < c + 1 := Nat.mod_lt _ (Nat.succ_pos c)
  have h0 : pacingUpdate 0 r = 0 := by
    rw [pacingUpdate_eq]
    simp [Nat.mod_one]
  refine ⟨fun hc => ?_, h0, by rw [waitMicroseconds, h0]⟩
  rw [pacingUpdate_eq]
  omega

/-- Witness for C9 at `c = 2`, `r = 5`. -/
theorem pacing_monotone_witness : pacingUpdate 2 5 ≤ 2 ∧ pacingUpdate 0 5 = 0 :=
  ⟨(pacing_monotone 2 5).1 (by decide), (pacing_monotone 0 5).2.1⟩

/-- C10: the two arguments `NewServiceInstance` passes to `wo.Populate` —
`rand.Intn(maxWarehouses-10+1)+10` and `rand.Intn(maxCargoUnits-10+1)+10` —
always lie in `[10, 255]` and `[10, 1024]` respectively, whatever the
random source yields. -/
theorem populate_bounds (r1 r2 : Nat) :
    10 ≤ populateWarehouseCount r1 ∧ populateWarehouseCount r1 ≤ 255 ∧
    10 ≤ populateUnitCount r2 ∧ populateUnitCount r2 ≤ 1024 := by
  have e1 : maxWarehouses - 10 + 1 = 246 := by norm_num [maxWarehouses]
  have e2 : maxCargoUnits - 10 + 1 = 1015 := by norm_num [maxCargoUnits]
  rw [populateWarehouseCount, populateUnitCount, e1, e2]
  have h1 : r1 % 246 < 246 := Nat.mod_lt _ (by omega)
  have h2 : r2 % 1015 < 1015 := Nat.mod_lt _ (by omega)
  omega

/-- C3: for a pending unit that stays at its coordinate and has a warehouse
there, the task increments "UnitReachedWarehouse" Attempts and issues the
arrival report; on transport failure it additionally increments its Errors
and leaves the unit Pending (at the same coordinate, so the report is
re-attempted next round), and on success it marks the unit Arrived. -/
theorem arrival_report (wr : WorldRules) (o : TaskOutcome) (u : GraphNode)
    (s : Statistics) (p : Nat) (mOp wOp : Operation) (wh : Warehouse)
    (hops : s.operation = [mOp, wOp])
    (hpend : u.metadata = false)
    (hstay : wr.route u.coordinate = u.coordinate)
    (hwh : wr.findWarehouse u.coordinate = some wh)
    (hmv : o.moveErr = false) :
    Rpc.unitReachedWarehouse u.coordinate u.id wh.id ∈ (processDelivery wr o u s p).rpcs ∧
    (processDelivery wr o u s p).stats.operation =
      [mOp.addA, if o.reachErr then wOp.addA.addB else wOp.addA] ∧
    (processDelivery wr o u s p).unit.metadata = !o.reachErr ∧
    (processDelivery wr o u s p).unit.coordinate = u.coordinate := by
  cases hr : o.reachErr <;>
    simp [processDelivery, hmv, hstay, hwh, hpend, hr, Statistics.addA,
      Statistics.addB, hops, modifyIdx]

/-- Witness for C3: unit U1 already at warehouse W1's coordinate, transport
succeeding. -/
theorem arrival_report_witness :
    Rpc.unitReachedWarehouse ⟨0, 0⟩ 1 wh1.id ∈
      (processDelivery scenarioRules ⟨false, false, 0⟩ ⟨1, "U1", ⟨0, 0⟩, false⟩
        (initStatistics 0) 100).rpcs ∧
    (processDelivery scenarioRules ⟨false, false, 0⟩ ⟨1, "U1", ⟨0, 0⟩, false⟩
        (initStatistics 0) 100).stats.operation =
      [Operation.addA ⟨"MoveUnit", 0, 0⟩,
       if (false : Bool) then (Operation.addA ⟨"UnitReachedWarehouse", 0, 0⟩).addB
       else Operation.addA ⟨"UnitReachedWarehouse", 0, 0⟩] ∧
    (processDelivery scenarioRules ⟨false, false, 0⟩ ⟨1, "U1", ⟨0, 0⟩, false⟩
        (initStatistics 0) 100).unit.metadata = !(false : Bool) ∧
    (processDelivery scenarioRules ⟨false, false, 0⟩ ⟨1, "U1", ⟨0, 0⟩, false⟩
        (initStatistics 0) 100).unit.coordinate = ⟨0, 0⟩ :=
  arrival_report scenarioRules ⟨false, false, 0⟩ ⟨1, "U1", ⟨0, 0⟩, false⟩
    (initStatistics 0) 100 ⟨"MoveUnit", 0, 0⟩ ⟨"UnitReachedWarehouse", 0, 0⟩ wh1
    rfl rfl rfl rfl rfl

/-- C4: for a pending unit whose move report fails, the task increments
"MoveUnit" Errors and returns: the unit stays Pending, keeps the
already-updated coordinate returned by the world model (no rollback), and
no arrival detection or arrival report happens — the only RPC issued is the
move report. -/
theorem move_report_failure (wr : WorldRules) (o : TaskOutcome) (u : GraphNode)
    (s : Statistics) (p : Nat) (mOp wOp : Operation)
    (hops : s.operation = [mOp, wOp])
    (hpend : u.metadata = false)
    (hmv : o.moveErr = true) :
    (processDelivery wr o u s p).stats.operation = [mOp.addA.addB, wOp] ∧
    (processDelivery wr o u s p).unit.metadata = false ∧
    (processDelivery wr o u s p).unit.coordinate = wr.route u.coordinate ∧
    (processDelivery wr o u s p).rpcs = [.moveUnit u.id (wr.route u.coordinate)] := by
  simp [processDelivery, hmv, hpend, Statistics.addA, Statistics.addB, hops, modifyIdx]

/-- Witness for C4: unit U1 one step out, move report failing. -/
theorem move_report_failure_witness :
    (processDelivery scenarioRules ⟨true, false, 0⟩ u1
        (initStatistics 0) 100).stats.operation =
      [(Operation.addA ⟨"MoveUnit", 0, 0⟩).addB, ⟨"UnitReachedWarehouse", 0, 0⟩] ∧
    (processDelivery scenarioRules ⟨true, false, 0⟩ u1
        (initStatistics 0) 100).unit.metadata = false ∧
    (processDelivery scenarioRules ⟨true, false, 0⟩ u1
        (initStatistics 0) 100).unit.coordinate = scenarioRules.route u1.coordinate ∧
    (processDelivery scenarioRules ⟨true, false, 0⟩ u1
        (initStatistics 0) 100).rpcs =
      [.moveUnit u1.id (scenarioRules.route u1.coordinate)] :=
  move_report_failure scenarioRules ⟨true, false, 0⟩ u1 (initStatistics 0) 100
    ⟨"MoveUnit", 0, 0⟩ ⟨"UnitReachedWarehouse", 0, 0⟩ rfl rfl rfl

/-- C5: for a pending unit that stays at its coordinate but where no
warehouse exists, the task returns without touching either
"UnitReachedWarehouse" counter and without issuing an arrival report, and
the unit stays Pending. -/
theorem routing_anomaly (wr : WorldRules) (o : TaskOutcome) (u : GraphNode)
    (s : Statistics) (p : Nat) (mOp wOp : Operation)
    (hops : s.operation = [mOp, wOp])
    (hpend : u.metadata = false)
    (hstay : wr.route u.coordinate = u.coordinate)
    (hwh : wr.findWarehouse u.coordinate = none)
    (hmv : o.moveErr = false) :
    (processDelivery wr o u s p).stats.operation = [mOp.addA, wOp] ∧
    (processDelivery wr o u s p).unit.metadata = false ∧
    (processDelivery wr o u s p).rpcs = [.moveUnit u.id u.coordinate] := by
  simp [processDelivery, hmv, hstay, hwh, hpend, Statistics.addA, hops, modifyIdx]

/-- Witness for C5: a unit stationary at (0, 5), where no warehouse is. -/
theorem routing_anomaly_witness :
    (processDelivery scenarioRules ⟨false, false, 0⟩ ⟨4, "U4", ⟨0, 5⟩, false⟩
        (initStatistics 0) 100).stats.operation =
      [Operation.addA ⟨"MoveUnit", 0, 0⟩, ⟨"UnitReachedWarehouse", 0, 0⟩] ∧
    (processDelivery scenarioRules ⟨false, false, 0⟩ ⟨4, "U4", ⟨0, 5⟩, false⟩
        (initStatistics 0) 100).unit.metadata = false ∧
    (processDelivery scenarioRules ⟨false, false, 0⟩ ⟨4, "U4", ⟨0, 5⟩, false⟩
        (initStatistics 0) 100).rpcs = [.moveUnit 4 ⟨0, 5⟩] :=
  routing_anomaly scenarioRules ⟨false, false, 0⟩ ⟨4, "U4", ⟨0, 5⟩, false⟩
    (initStatistics 0) 100 ⟨"MoveUnit", 0, 0⟩ ⟨"UnitReachedWarehouse", 0, 0⟩
    rfl rfl rfl rfl rfl

/-- C1 counterexample: in the scenario (U1, U2, U3 at 1, 2, 3 steps from
warehouse W1, transport always succeeding), after 3 rounds U3 is still
Pending: arrival is only detected in the round after a unit stops moving,
so a unit `d` steps away needs `d + 1` rounds. -/
theorem scenario_three_rounds_counterexample :
    countArrived (roundTrace scenarioRules alwaysOk 3 scenarioInit).1.units = 2 ∧
    (roundTrace scenarioRules alwaysOk 3 scenarioInit).1.units.map
      (fun u => (u.id, u.metadata)) = [(1, true), (2, true), (3, false)] := by
  constructor <;> rfl

/-- C1 (amended): in the scenario the round loop marks all three units
Arrived after exactly 4 rounds (not after 3), the "UnitReachedWarehouse"
counter ends at Attempts = 3 and Errors = 0, and the loop exits at the
start of round 5. -/
theorem scenario_four_rounds :
    countArrived (roundTrace scenarioRules alwaysOk 4 scenarioInit).1.units = 3 ∧
    countArrived (roundTrace scenarioRules alwaysOk 3 scenarioInit).1.units ≠ 3 ∧
    (roundTrace scenarioRules alwaysOk 4 scenarioInit).1.stats.operation =
      [⟨"MoveUnit", 9, 0⟩, ⟨"UnitReachedWarehouse", 3, 0⟩] ∧
    runLoop scenarioRules alwaysOk 5 scenarioInit =
      some (roundTrace scenarioRules alwaysOk 4 scenarioInit).1 := by
  refine ⟨rfl, by decide, rfl, by decide⟩

/-- If the round loop returns a state, that state is converged: the arrived
count equals the total unit count. -/
theorem runLoop_converged (wr : WorldRules) :
    ∀ (fuel : Nat) (env : Nat → Nat → TaskOutcome) (st st' : RunState),
      runLoop wr env fuel st = some st' →
      countArrived st'.units = st'.units.length := by
  intro fuel
  induction fuel with
  | zero => intro env st st' h; simp [runLoop] at h
  | succ m ih =>
    intro env st st' h
    rw [runLoop] at h
    by_cases hc : countArrived st.units = st.units.length
    · rw [if_pos hc] at h
      cases h
      exact hc
    · rw [if_neg hc] at h
      exact ih _ _ _ h

/-- C6: the round loop exits exactly when the number of Arrived units,
counted at the start of a round, equals the total unit count — a returned
state is converged and a converged state exits immediately with no further
round — and on exit `Run` assembles the elapsed time since construction
together with one (name, attempts, errors) row per operation. -/
theorem run_convergence (wr : WorldRules) (env : Nat → Nat → TaskOutcome)
    (fuel : Nat) (st : RunState) (now : Nat) :
    (∀ st', runLoop wr env fuel st = some st' →
      countArrived st'.units = st'.units.length ∧
      Run wr env fuel st now =
        some (now - st'.stats.execTime,
          st'.stats.operation.map (fun o => (o.name, o.a, o.b)))) ∧
    (countArrived st.units = st.units.length →
      runLoop wr env (fuel + 1) st = some st) := by
  constructor
  · intro st' h
    refine ⟨runLoop_converged wr fuel env st st' h, ?_⟩
    rw [Run, h]
    rfl
  · intro hc
    rw [runLoop, if_pos hc]

/-- Witness for C6: a converged one-unit state exits at once, and the
returned state is converged. -/
theorem run_convergence_witness :
    countArrived stDoneExample.units = stDoneExample.units.length ∧
    runLoop scenarioRules alwaysOk 1 stDoneExample = some stDoneExample :=
  ⟨((run_convergence scenarioRules alwaysOk 1 stDoneExample 7).1 stDoneExample
      ((run_convergence scenarioRules alwaysOk 0 stDoneExample 7).2 (by decide))).1,
   (run_convergence scenarioRules alwaysOk 0 stDoneExample 7).2 (by decide)⟩

/-- A delivery task never changes the unit's id. -/
theorem processDelivery_unit_id (wr : WorldRules) (o : TaskOutcome)
    (u : GraphNode) (s : Statistics) (p : Nat) :
    (processDelivery wr o u s p).unit.id = u.id := by
  simp only [processDelivery]
  repeat' split
  all_goals rfl

/-- Every RPC issued by a delivery task reports about the task's own unit. -/
theorem processDelivery_rpcs_id (wr : WorldRules) (o : TaskOutcome)
    (u : GraphNode) (s : Statistics) (p : Nat) :
    ∀ rp ∈ (processDelivery wr o u s p).rpcs, rpcUnitId rp = u.id := by
  simp only [processDelivery]
  repeat' split
  all_goals simp [rpcUnitId]

/-- A round's fan-out preserves the unit id sequence. -/
theorem runUnits_ids (wr : WorldRules) (f : Nat → TaskOutcome) :
    ∀ (us : List GraphNode) (i : Nat) (s : Statistics) (p : Nat),
      (runUnits wr f i us s p).units.map (fun u => u.id) =
        us.map (fun u => u.id) := by
  intro us
  induction us with
  | nil => intro i s p; rfl
  | cons v rest ih =>
    intro i s p
    cases hv : v.metadata <;>
      simp [runUnits, hv, ih, processDelivery_unit_id]

/-- An already-arrived unit is skipped by the fan-out and survives the
round unchanged. -/
theorem runUnits_arrived_mem (wr : WorldRules) (f : Nat → TaskOutcome) :
    ∀ (us : List GraphNode) (i : Nat) (s : Statistics) (p : Nat)
      (u : GraphNode), u ∈ us → u.metadata = true →
      u ∈ (runUnits wr f i us s p).units := by
  intro us
  induction us with
  | nil => intro i s p u h; cases h
  | cons v rest ih =>
    intro i s p u hmem hmeta
    rcases List.mem_cons.mp hmem with h | h
    · subst h
      rw [runUnits]
      rw [if_pos hmeta]
      exact List.mem_cons_self _ _
    · by_cases hv : v.metadata = true
      · rw [runUnits, if_pos hv]
        exact List.mem_cons_of_mem _ (ih (i + 1) s p u h hmeta)
      · rw [runUnits, if_neg hv]
        exact List.mem_cons_of_mem _ (ih (i + 1) _ _ u h hmeta)

/-- Every RPC issued during a round belongs to a unit that was Pending at
the start of the round. -/
theorem runUnits_rpcs (wr : WorldRules) (f : Nat → TaskOutcome) :
    ∀ (us : List GraphNode) (i : Nat) (s : Statistics) (p : Nat) (rp : Rpc),
      rp ∈ (runUnits wr f i us s p).rpcs →
      ∃ v ∈ us, v.metadata = false ∧ rpcUnitId rp = v.id := by
  intro us
  induction us with
  | nil => intro i s p rp h; cases h
  | cons v rest ih =>
    intro i s p rp h
    by_cases hv : v.metadata = true
    · rw [runUnits, if_pos hv] at h
      obtain ⟨w, hw, hwm, hid⟩ := ih (i + 1) s p rp h
      exact ⟨w, List.mem_cons_of_mem _ hw, hwm, hid⟩
    · rw [runUnits, if_neg hv] at h
      rcases List.mem_append.mp h with h1 | h1
      · exact ⟨v, List.mem_cons_self _ _, Bool.not_eq_true v.metadata ▸ hv,
          processDelivery_rpcs_id wr (f i) v s p rp h1⟩
      · obtain ⟨w, hw, hwm, hid⟩ := ih (i + 1) _ _ rp h1
        exact ⟨w, List.mem_cons_of_mem _ hw, hwm, hid⟩

/-- Unfolding equation for `roundTrace` at a successor round count. -/
theorem roundTrace_succ (wr : WorldRules) (env : Nat → Nat → TaskOutcome)
    (n : Nat) (st : RunState) :
    roundTrace wr env (n + 1) st =
      ((roundTrace wr (fun k => env (k + 1)) n (runRound wr (env 0) st).1).1,
       (runRound wr (env 0) st).2 ++
         (roundTrace wr (fun k => env (k + 1)) n (runRound wr (env 0) st).1).2) :=
  rfl

/-- Across any number of rounds, an arrived unit survives unchanged and,
when unit ids are distinct, none of the issued RPCs reports about it. -/
theorem roundTrace_arrived (wr : WorldRules) :
    ∀ (n : Nat) (env : Nat → Nat → TaskOutcome) (st : RunState)
      (u : GraphNode),
      (st.units.map (fun v => v.id)).Nodup → u ∈ st.units →
      u.metadata = true →
      u ∈ (roundTrace wr env n st).1.units ∧
      ∀ rp ∈ (roundTrace wr env n st).2, rpcUnitId rp ≠ u.id := by
  intro n
  induction n with
  | zero =>
    intro env st u hnd hmem hmeta
    exact ⟨hmem, by intro rp hrp; cases hrp⟩
  | succ m ih =>
    intro env st u hnd hmem hmeta
    have hids : (runRound wr (env 0) st).1.units.map (fun v => v.id) =
        st.units.map (fun v => v.id) :=
      runUnits_ids wr (env 0) st.units 0 st.stats st.pace
    have hnd1 : ((runRound wr (env 0) st).1.units.map (fun v => v.id)).Nodup :=
      hids ▸ hnd
    have hmem1 : u ∈ (runRound wr (env 0) st).1.units :=
      runUnits_arrived_mem wr (env 0) st.units 0 st.stats st.pace u hmem hmeta
    obtain ⟨ha, hb⟩ :=
      ih (fun k => env (k + 1)) (runRound wr (env 0) st).1 u hnd1 hmem1 hmeta
    rw [roundTrace_succ]
    refine ⟨ha, ?_⟩
    intro rp hrp heq
    rcases List.mem_append.mp hrp with h1 | h1
    · obtain ⟨v, hv, hvm, hvid⟩ :=
        runUnits_rpcs wr (env 0) st.units 0 st.stats st.pace rp h1
      have hvu : v = u :=
        List.inj_on_of_nodup_map hnd hv hmem (by rw [← hvid, heq])
      rw [hvu, hmeta] at hvm
      cases hvm
    · exact hb rp h1 heq

/-- C7: a unit that is Arrived in a reachable state of the round loop stays
Arrived through every later round (the Pending-to-Arrived transition is
never reverted), is never put on a round's fan-out list again, and — when
unit ids are distinct — no further movement or arrival RPC is issued for
it. -/
theorem arrived_monotone (wr : WorldRules) (env : Nat → Nat → TaskOutcome)
    (n : Nat) (st : RunState) (u : GraphNode)
    (hnd : (st.units.map (fun v => v.id)).Nodup)
    (hmem : u ∈ st.units) (hmeta : u.metadata = true) :
    u ∈ (roundTrace wr env n st).1.units ∧
    u ∉ pendingUnits (roundTrace wr env n st).1.units ∧
    ∀ rp ∈ (roundTrace wr env n st).2, rpcUnitId rp ≠ u.id := by
  obtain ⟨h1, h2⟩ := roundTrace_arrived wr n env st u hnd hmem hmeta
  refine ⟨h1, ?_, h2⟩
  intro hcon
  have hflt := (List.mem_filter.mp hcon).2
  rw [hmeta] at hflt
  cases hflt

/-- Witness for C7: the arrived unit of `stMixedExample`, over two rounds. -/
theorem arrived_monotone_witness :
    (⟨1, "U1", ⟨0, 0⟩, true⟩ : GraphNode) ∈
      (roundTrace scenarioRules alwaysOk 2 stMixedExample).1.units ∧
    (⟨1, "U1", ⟨0, 0⟩, true⟩ : GraphNode) ∉
      pendingUnits (roundTrace scenarioRules alwaysOk 2 stMixedExample).1.units ∧
    ∀ rp ∈ (roundTrace scenarioRules alwaysOk 2 stMixedExample).2,
      rpcUnitId rp ≠ (⟨1, "U1", ⟨0, 0⟩, true⟩ : GraphNode).id :=
  arrived_monotone scenarioRules alwaysOk 2 stMixedExample
    ⟨1, "U1", ⟨0, 0⟩, true⟩ (by decide) (List.mem_cons_self _ _) rfl

/-- Two in-place updates at the same index compose. -/
theorem modifyIdx_modifyIdx (f g : Operation → Operation) :
    ∀ (i : Nat) (l : List Operation),
      modifyIdx f i (modifyIdx g i l) = modifyIdx (fun o => f (g o)) i l := by
  intro i
  induction i with
  | zero => intro l; cases l <;> simp [modifyIdx]
  | succ n ih =>
    intro l
    cases l with
    | nil => rfl
    | cons o rest => simp [modifyIdx, ih rest]

/-- An in-place update by a property-preserving function preserves a
pointwise property of the counter list. -/
theorem modifyIdx_forall {P : Operation → Prop} (f : Operation → Operation)
    (hf : ∀ o, P o → P (f o)) :
    ∀ (i : Nat) (l : List Operation), (∀ o ∈ l, P o) →
      ∀ o ∈ modifyIdx f i l, P o := by
  intro i
  induction i with
  | zero =>
    intro l hl o ho
    cases l with
    | nil => cases ho
    | cons v rest =>
      rcases List.mem_cons.mp ho with h | h
      · exact h ▸ hf v (hl v (List.mem_cons_self _ _))
      · exact hl o (List.mem_cons_of_mem _ h)
  | succ n ih =>
    intro l hl o ho
    cases l with
    | nil => cases ho
    | cons v rest =>
      rcases List.mem_cons.mp ho with h | h
      · exact h ▸ hl v (List.mem_cons_self _ _)
      · exact ih rest (fun w hw => hl w (List.mem_cons_of_mem _ hw)) o h

/-- Recording an attempt keeps Errors ≤ Attempts. -/
theorem statsOk_addA (s : Statistics) (i : Nat) (h : statsOk s) :
    statsOk (s.addA i) :=
  modifyIdx_forall Operation.addA
    (fun o ho => by simp only [Operation.addA]; omega) i s.operation h

/-- Recording an attempt and then an error on the same operation keeps
Errors ≤ Attempts. -/
theorem statsOk_addA_addB (s : Statistics) (i : Nat) (h : statsOk s) :
    statsOk ((s.addA i).addB i) := by
  intro o ho
  have he : ((s.addA i).addB i).operation =
      modifyIdx (fun o => Operation.addB (Operation.addA o)) i s.operation := by
    simp [Statistics.addA, Statistics.addB, modifyIdx_modifyIdx]
  rw [he] at ho
  exact modifyIdx_forall _
    (fun o ho => by simp only [Operation.addA, Operation.addB]; omega)
    i s.operation h o ho

/-- One delivery task preserves the counter invariant: on every control
path an operation's Errors counter is only incremented after the same
operation's Attempts counter. -/
theorem processDelivery_statsOk (wr : WorldRules) (o : TaskOutcome)
    (u : GraphNode) (s : Statistics) (p : Nat) (h : statsOk s) :
    statsOk (processDelivery wr o u s p).stats := by
  simp only [processDelivery]
  repeat' split
  all_goals
    first
      | exact statsOk_addA_addB s 0 h
      | exact statsOk_addA s 0 h
      | exact statsOk_addA_addB (s.addA 0) 1 (statsOk_addA s 0 h)
      | exact statsOk_addA (s.addA 0) 1 (statsOk_addA s 0 h)

/-- A round's fan-out preserves the counter invariant. -/
theorem runUnits_statsOk (wr : WorldRules) (f : Nat → TaskOutcome) :
    ∀ (us : List GraphNode) (i : Nat) (s : Statistics) (p : Nat),
      statsOk s → statsOk (runUnits wr f i us s p).stats := by
  intro us
  induction us with
  | nil => intro i s p h; exact h
  | cons v rest ih =>
    intro i s p h
    by_cases hv : v.metadata = true
    · simp only [runUnits]
      rw [if_pos hv]
      exact ih (i + 1) s p h
    · simp only [runUnits]
      rw [if_neg hv]
      exact ih (i + 1) _ _ (processDelivery_statsOk wr (f i) v s p h)

/-- Any number of rounds preserves the counter invariant. -/
theorem roundTrace_statsOk (wr : WorldRules) :
    ∀ (n : Nat) (env : Nat → Nat → TaskOutcome) (st : RunState),
      statsOk st.stats → statsOk (roundTrace wr env n st).1.stats := by
  intro n
  induction n with
  | zero => intro env st h; exact h
  | succ m ih =>
    intro env st h
    rw [roundTrace_succ]
    exact ih (fun k => env (k + 1)) _
      (runUnits_statsOk wr (env 0) st.units 0 st.stats st.pace h)

/-- C8: Errors ≤ Attempts for every operation, in every state reachable by
task steps: a single delivery task preserves the invariant from any
invariant-satisfying statistics, and from the constructor's zeroed
"MoveUnit" / "UnitReachedWarehouse" counters every state after any number
of rounds satisfies it. -/
theorem counter_invariant (wr : WorldRules) (env : Nat → Nat → TaskOutcome)
    (o : TaskOutcome) (u : GraphNode) (s : Statistics) (p : Nat)
    (n : Nat) (units : List GraphNode) (pace t : Nat)
    (h : statsOk s) :
    statsOk (processDelivery wr o u s p).stats ∧
    statsOk (roundTrace wr env n ⟨units, initStatistics t, pace⟩).1.stats :=
  ⟨processDelivery_statsOk wr o u s p h,
   roundTrace_statsOk wr n env ⟨units, initStatistics t, pace⟩
     (by intro op hop; rcases List.mem_cons.mp hop with he | he
         · rw [he]
         · rcases List.mem_cons.mp he with he2 | he2
           · rw [he2]
           · cases he2)⟩

/-- Witness for C8: a task with a failing arrival report, and the full
four-round scenario. -/
theorem counter_invariant_witness :
    statsOk (processDelivery scenarioRules ⟨false, true, 0⟩ u1
      (initStatistics 0) 100).stats ∧
    statsOk (roundTrace scenarioRules alwaysOk 4
      ⟨[u1, u2, u3], initStatistics 0, 100⟩).1.stats :=
  counter_invariant scenarioRules alwaysOk ⟨false, true, 0⟩ u1
    (initStatistics 0) 100 4 [u1, u2, u3] 100 0
    (by simp [statsOk, initStatistics])

end Logistics
